import Mathlib

/-!
# Verification of the "details" book-metadata microservice

A shallow embedding of the application logic of `details-instrumented.go`:
the header forwarder (`getForwardHeaders` over the `incomingHeaders`
allow-list), the detail resolver (`getBookDetails`), the external book
client (`fetchDetailsFromExternalService`) and the `/details` HTTP handler
(`details`).  Effects are made explicit:

* the process environment (`os.Getenv`) is a function `String → String`
  passed to each function that reads it, exactly where the Go code reads it;
* the single outbound HTTP call is a function `String → Upstream` from the
  request URI to the observed outcome (connection error, or a status code
  together with the record state left by `json.Decode`);
* a Go runtime panic (index out of range) is modelled as `none` in an
  `Option` result.

Machine integers (Go `int` = 64-bit) stay `Int`; `strconv.Atoi` is modelled
with its exact syntax/range behaviour.  Strings are Lean `String`s; Go
byte-level case operations act on `Char.toNat` (header names are ASCII
token bytes, checked by `tokenChar`).
-/

namespace BookDetails

/-! ## Byte-level case operations (Go `toLower`/`toUpper` on header bytes) -/

def lowerNat (n : Nat) : Nat := if 65 ≤ n ∧ n ≤ 90 then n + 32 else n

def upperNat (n : Nat) : Nat := if 97 ≤ n ∧ n ≤ 122 then n - 32 else n

def lowerChar (c : Char) : Char := Char.ofNat (lowerNat c.toNat)

def upperChar (c : Char) : Char := Char.ofNat (upperNat c.toNat)

/-- The RFC 7230 token bytes Go accepts in header field names
(`validHeaderFieldByte` in `net/textproto`). -/
def tokenNat (n : Nat) : Bool :=
  decide ((48 ≤ n ∧ n ≤ 57) ∨ (65 ≤ n ∧ n ≤ 90) ∨ (97 ≤ n ∧ n ≤ 122) ∨
    n = 33 ∨ n = 35 ∨ n = 36 ∨ n = 37 ∨ n = 38 ∨ n = 39 ∨ n = 42 ∨ n = 43 ∨
    n = 45 ∨ n = 46 ∨ n = 94 ∨ n = 95 ∨ n = 96 ∨ n = 124 ∨ n = 126)

def tokenChar (c : Char) : Bool := tokenNat c.toNat

/-! ## Case-insensitive name equality and MIME canonicalization -/

/-- Byte-wise lowercase image of a string, the yardstick for
case-insensitive equality of header names. -/
def lowerStr (s : String) : String := String.mk (s.data.map lowerChar)

/-- Two header names are case-insensitively equal when their lowercase
images coincide. -/
def caseInsensitiveEq (a b : String) : Bool := lowerStr a = lowerStr b

/-- One pass of Go `canonicalMIMEHeaderKey`: uppercase a byte at a word
start (start of string or right after a hyphen), lowercase it elsewhere. -/
def canonList : Bool → List Char → List Char
  | _, [] => []
  | up, c :: cs =>
    let c' := if up then upperChar c else lowerChar c
    c' :: canonList (c' = '-') cs

/-- Go `textproto.CanonicalMIMEHeaderKey`: if every byte is a valid header
field byte, canonicalize the case; otherwise return the string unchanged. -/
def canonicalMIMEHeaderKey (s : String) : String :=
  if s.data.all tokenChar then String.mk (canonList true s.data) else s

/-! ## `strconv.Atoi` -/

/-- Accumulate decimal digits; `none` as soon as a non-digit byte occurs
(the `strconv.ParseInt` syntax-error case). -/
def digitsToNat (acc : Nat) : List Char → Option Nat
  | [] => some acc
  | c :: cs =>
    if 48 ≤ c.toNat ∧ c.toNat ≤ 57 then digitsToNat (acc * 10 + (c.toNat - 48)) cs
    else none

/-- The unbounded signed decimal integer denoted by `s`: an optional
leading `+` or `-` sign followed by at least one decimal digit, nothing
else.  `none` on any other shape. -/
def parseSigned (s : String) : Option Int :=
  let signDigits : Bool × List Char :=
    match s.data with
    | c :: cs => if c = '-' then (true, cs) else if c = '+' then (false, cs) else (false, s.data)
    | [] => (false, [])
  match signDigits.2 with
  | [] => none
  | ds => (digitsToNat 0 ds).map (fun n => if signDigits.1 then -(n : Int) else (n : Int))

/-- Go `strconv.Atoi` (= `ParseInt(s, 10, 64)` on a 64-bit platform):
returns the parsed value and an ok flag (`true` iff `err == nil`).  On a
syntax error the value is 0; on a range error the value is clamped to the
64-bit bound and the error is still reported. -/
def goAtoi (s : String) : Int × Bool :=
  match parseSigned s with
  | none => (0, false)
  | some v =>
    if v < -(2 ^ 63) then (-(2 ^ 63), false)
    else if v > 2 ^ 63 - 1 then (2 ^ 63 - 1, false)
    else (v, true)

/-! ## Data model -/

/-- The `Details` record (JSON field names in `marshalDetails`). -/
structure Details where
  id : Int := 0
  author : String := ""
  year : Int := 0
  type : String := ""
  pages : Int := 0
  publisher : String := ""
  language : String := ""
  isbn10 : String := ""
  isbn13 : String := ""
  deriving DecidableEq, Repr

/-- The zero value `&Details{}` returned on a swallowed upstream failure. -/
def zeroDetails : Details := {}

/-- The nested `volumeInfo` object of the upstream response shape, with
Go zero values as defaults (what `json.Decode` leaves for absent fields). -/
structure VolumeInfo where
  language : String := ""
  printType : String := ""
  authors : List String := []
  publisher : String := ""
  pageCount : Int := 0
  publishedDate : String := ""
  industryIdentifiers : List (String × String) := []
  deriving DecidableEq, Repr

/-- The record `rec` the client decodes the upstream body into. -/
structure BooksResponse where
  items : List VolumeInfo := []
  deriving DecidableEq, Repr

/-- Outcome of the one outbound HTTP call, as observed by the client code:
either `client.Do` returns an error, or a response arrives with a status
code and `rec` holds `decoded` after `json.Decode` ran on the body (the
decode error is discarded by the code, so a failed or empty decode is the
zero-valued `BooksResponse`). -/
inductive Upstream where
  | connError : Upstream
  | response : Nat → BooksResponse → Upstream
  deriving DecidableEq

/-! ## Headers -/

/-- Go `http.Header`: a mapping from field name to ordered values, modelled as
an association list with distinct keys (insertion order). -/
abbrev HeaderMap : Type := List (String × List String)

/-- Go map indexing `h[k]`: the values stored under exact key `k`, `nil`
(= `[]`) when absent. -/
def headerGet : HeaderMap → String → List String
  | [], _ => []
  | p :: rest, k => if p.1 = k then p.2 else headerGet rest k

/-- The map update `m[key] = append(m[key], value)` on an association list. -/
def addHeaderValue : HeaderMap → String → String → HeaderMap
  | [], k, v => [(k, [v])]
  | (k', vs) :: rest, k, v =>
    if k' = k then (k', vs ++ [v]) :: rest
    else (k', vs) :: addHeaderValue rest k v

/-- The server side (`textproto.ReadMIMEHeader`): each wire field
`(name, value)` is stored under the canonical MIME key of its name,
values accumulating in wire order. -/
def buildHeader (wire : List (String × String)) : HeaderMap :=
  wire.foldl (fun h p => addHeaderValue h (canonicalMIMEHeaderKey p.1) p.2) []

/-- Go `http.Header.Values(key)`: lookup under the canonical MIME key. -/
def headerValues (h : HeaderMap) (key : String) : List String :=
  headerGet h (canonicalMIMEHeaderKey key)

/-- The fixed allow-list of header names the service forwards. -/
def incomingHeaders : List String :=
  ["x-request-id",
   "x-ot-span-context",
   "x-datadog-trace-id",
   "x-datadog-parent-id",
   "x-datadog-sampling-priority",
   "traceparent",
   "tracestate",
   "x-cloud-trace-context",
   "grpc-trace-bin",
   "x-b3-traceid",
   "x-b3-spanid",
   "x-b3-parentspanid",
   "x-b3-sampled",
   "x-b3-flags",
   "end-user",
   "user-agent"]

/-- The function `getForwardHeaders`: for each allow-listed name, if the request has
values under it (canonical lookup), store them under the name exactly as
written in the list. -/
def getForwardHeaders (h : HeaderMap) : HeaderMap :=
  incomingHeaders.filterMap (fun item =>
    let values := headerValues h item
    if 0 < values.length then some (item, values) else none)

/-! ## External book client and detail resolver -/

/-- The URI `fetchDetailsFromExternalService` builds: protocol chosen by
the `DO_NOT_ENCRYPT` environment variable read at call time. -/
def booksUri (env : String → String) (isbn : String) : String :=
  (if env "DO_NOT_ENCRYPT" = "true" then "http" else "https")
    ++ "://www.googleapis.com/books/v1/volumes?q=isbn:" ++ isbn

/-- The function `fetchDetailsFromExternalService`.  Here `headers` is accepted (as in the
source) but never used by the body.  `none` models the runtime panic of
`rec.Items[0]` / `book.Authors[0]` on an empty slice; every non-panicking
path yields `some`. -/
def fetchDetailsFromExternalService (env : String → String) (isbn : String) (id : Int)
    (headers : HeaderMap) (upstream : String → Upstream) : Option Details :=
  match upstream (booksUri env isbn) with
  | .connError => some zeroDetails
  | .response status rec =>
    if status ≠ 200 then some zeroDetails
    else
      match rec.items with
      | [] => none
      | book :: _ =>
        let printType := if book.printType = "BOOK" then "paperback" else "unknown"
        let language := if book.language = "en" then "English" else "unknown"
        let isbnIdentifier : String → String :=
          book.industryIdentifiers.foldl
            (fun m item => fun k => if k = item.1 then item.2 else m k) (fun _ => "")
        let year := (goAtoi book.publishedDate).1
        match book.authors with
        | [] => none
        | a :: _ =>
          some { id := id, author := a, year := year, type := printType,
                 pages := book.pageCount, publisher := book.publisher,
                 language := language, isbn10 := isbnIdentifier "ISBN_10",
                 isbn13 := isbnIdentifier "ISBN_13" }

/-- The fixed literal `Details` returned when the external source is off. -/
def staticDetails (id : Int) : Details :=
  { id := id, author := "William Shakespeare", year := 1595, type := "paperback",
    pages := 200, publisher := "PublisherA", language := "English",
    isbn10 := "1234567890", isbn13 := "123-1234567890" }

/-- The function `getBookDetails`: reads `ENABLE_EXTERNAL_BOOK_SERVICE` from the
environment on every call and branches. -/
def getBookDetails (env : String → String) (id : Int) (headers : HeaderMap)
    (upstream : String → Upstream) : Option Details :=
  if env "ENABLE_EXTERNAL_BOOK_SERVICE" = "true" then
    fetchDetailsFromExternalService env "0486424618" id headers upstream
  else
    some (staticDetails id)

/-! ## JSON serialization (`encoding/json` on the structs in play) -/

def hexDigitChar (n : Nat) : Char :=
  if n < 10 then Char.ofNat (48 + n) else Char.ofNat (87 + n)

/-- Go `encoding/json` string-byte escaping (with the default HTML escaping
of `<`, `>`, `&`). -/
def jsonEscapeChar (c : Char) : String :=
  if c = '"' then "\\\""
  else if c = '\\' then "\\\\"
  else if c = '<' then "\\u003c"
  else if c = '>' then "\\u003e"
  else if c = '&' then "\\u0026"
  else if c = Char.ofNat 10 then "\\n"
  else if c = Char.ofNat 13 then "\\r"
  else if c = Char.ofNat 9 then "\\t"
  else if c.toNat < 32 then
    "\\u00" ++ String.mk [hexDigitChar (c.toNat / 16), hexDigitChar (c.toNat % 16)]
  else String.mk [c]

def jsonStr (s : String) : String :=
  "\"" ++ String.join (s.data.map jsonEscapeChar) ++ "\""

/-- Decimal rendering of a Go `int`. -/
def goIntString (i : Int) : String :=
  if i < 0 then "-" ++ Nat.repr i.natAbs else Nat.repr i.toNat

/-- Go `json.Marshal` of a `*Details` value: fields in declaration order under
their tag names. -/
def marshalDetails (d : Details) : String :=
  "\x7b\"id\":" ++ goIntString d.id ++
  ",\"author\":" ++ jsonStr d.author ++
  ",\"year\":" ++ goIntString d.year ++
  ",\"type\":" ++ jsonStr d.type ++
  ",\"pages\":" ++ goIntString d.pages ++
  ",\"publisher\":" ++ jsonStr d.publisher ++
  ",\"language\":" ++ jsonStr d.language ++
  ",\"isbn-10\":" ++ jsonStr d.isbn10 ++
  ",\"isbn-13\":" ++ jsonStr d.isbn13 ++ "\x7d"

/-- Go `json.Marshal` of the anonymous error struct in the 400 branch. -/
def errorBody : String := "\x7b\"error\":\"please provide numeric product id\"\x7d"

/-! ## The `/details` handler -/

/-- Go `strings.Split` with a one-byte separator.  Always non-empty. -/
def splitChars (sep : Char) : List Char → List (List Char)
  | [] => [[]]
  | c :: cs =>
    match splitChars sep cs with
    | [] => if c = sep then [[], []] else [[c]]
    | g :: gs => if c = sep then [] :: g :: gs else (c :: g) :: gs

/-- The selection `pathParts[len(pathParts)-1]` after Go `strings.Split(req.URL.Path, "/")`. -/
def lastSegment (path : String) : String :=
  String.mk ((splitChars '/' path.data).getLastD [])

/-- What the handler writes: status code, the Content-Type header it set,
and the body. -/
structure HttpResponse where
  status : Nat
  contentType : String
  body : String
  deriving DecidableEq, Repr

/-- The `details` handler: parse the trailing path segment with `Atoi`,
compute the forwarded headers, 400 with the fixed error JSON when the parse
failed, otherwise marshal the resolver result with implicit status 200.
`none` models the resolver panicking (no normal response is written). -/
def details (env : String → String) (path : String) (wire : List (String × String))
    (upstream : String → Upstream) : Option HttpResponse :=
  if (goAtoi (lastSegment path)).2 = false then
    some { status := 400, contentType := "application/json", body := errorBody }
  else
    match getBookDetails env (goAtoi (lastSegment path)).1
        (getForwardHeaders (buildHeader wire)) upstream with
    | none => none
    | some d =>
      some { status := 200, contentType := "application/json", body := marshalDetails d }

/-! ## Concrete fixtures used by witnesses and counterexamples -/

/-- An environment with neither toggle set. -/
def envOff : String → String := fun _ => ""

/-- An environment enabling the external book service. -/
def envOn : String → String :=
  fun n => if n = "ENABLE_EXTERNAL_BOOK_SERVICE" then "true" else ""

/-- An upstream where every outbound call fails at the transport. -/
def upConn : String → Upstream := fun _ => Upstream.connError

/-- An upstream item that decoded with an empty authors list. -/
def bookNoAuthors : VolumeInfo :=
  { language := "en", printType := "BOOK", publishedDate := "1984" }

/-- A well-formed upstream item for the fixed demo book, with a full
date string as the live API returns it. -/
def bookDated : VolumeInfo :=
  { language := "en", printType := "BOOK", authors := ["William Shakespeare"],
    publisher := "Dover Publications", pageCount := 96,
    publishedDate := "1595-05-01",
    industryIdentifiers := [("ISBN_10", "0486424618"), ("ISBN_13", "9780486424613")] }

/-! ## Theorems: byte-level case lemmas -/

theorem toNat_ofNat_valid (n : Nat) (h : n.isValidChar) : (Char.ofNat n).toNat = n := by
  simp only [Char.ofNat, dif_pos h, Char.ofNatAux, Char.toNat]
  simp [UInt32.toNat, BitVec.toNat_ofNat]

theorem ofNat_toNat (c : Char) : Char.ofNat c.toNat = c := by
  have hv : c.toNat.isValidChar := c.valid
  apply Char.ext
  have h1 : (Char.ofNat c.toNat).toNat = c.toNat := toNat_ofNat_valid _ hv
  exact UInt32.ext h1

theorem valid_lowerNat {n : Nat} (h : n.isValidChar) : (lowerNat n).isValidChar := by
  unfold lowerNat
  unfold Nat.isValidChar at *
  split <;> omega

theorem valid_upperNat {n : Nat} (h : n.isValidChar) : (upperNat n).isValidChar := by
  unfold upperNat
  unfold Nat.isValidChar at *
  split <;> omega

theorem toNat_lowerChar (c : Char) : (lowerChar c).toNat = lowerNat c.toNat :=
  toNat_ofNat_valid _ (valid_lowerNat c.valid)

theorem toNat_upperChar (c : Char) : (upperChar c).toNat = upperNat c.toNat :=
  toNat_ofNat_valid _ (valid_upperNat c.valid)

theorem char_eq_iff_toNat {a b : Char} : a = b ↔ a.toNat = b.toNat :=
  ⟨fun h => h ▸ rfl, fun h => Char.ext (UInt32.ext h)⟩

theorem upper_of_lower_eq {a b : Char} (h : lowerChar a = lowerChar b) :
    upperChar a = upperChar b := by
  rw [char_eq_iff_toNat, toNat_lowerChar, toNat_lowerChar] at h
  rw [char_eq_iff_toNat, toNat_upperChar, toNat_upperChar]
  unfold lowerNat at h
  unfold upperNat
  split_ifs at h ⊢ <;> omega

theorem lower_lower (c : Char) : lowerChar (lowerChar c) = lowerChar c := by
  rw [char_eq_iff_toNat]
  simp only [toNat_lowerChar]
  unfold lowerNat
  split_ifs <;> omega

theorem lower_upper (c : Char) : lowerChar (upperChar c) = lowerChar c := by
  rw [char_eq_iff_toNat]
  simp only [toNat_lowerChar, toNat_upperChar]
  unfold lowerNat upperNat
  split_ifs <;> omega

theorem tokenNat_lowerNat (n : Nat) : tokenNat (lowerNat n) = tokenNat n := by
  unfold tokenNat lowerNat
  split_ifs with h
  · simp only [decide_eq_decide]
    omega
  · rfl

theorem tokenChar_lowerChar (c : Char) : tokenChar (lowerChar c) = tokenChar c := by
  unfold tokenChar
  rw [toNat_lowerChar, tokenNat_lowerNat]

theorem tokenNat_upperNat (n : Nat) : tokenNat (upperNat n) = tokenNat n := by
  unfold tokenNat upperNat
  split_ifs with h
  · simp only [decide_eq_decide]
    omega
  · rfl

theorem tokenChar_upperChar (c : Char) : tokenChar (upperChar c) = tokenChar c := by
  unfold tokenChar
  rw [toNat_upperChar, tokenNat_upperNat]

/-! ## Theorems: case analysis of the external client -/

theorem fetch_conn (env : String → String) (isbn : String) (id : Int)
    (headers : HeaderMap) (upstream : String → Upstream)
    (h : upstream (booksUri env isbn) = .connError) :
    fetchDetailsFromExternalService env isbn id headers upstream = some zeroDetails := by
  unfold fetchDetailsFromExternalService
  rw [h]

theorem fetch_bad_status (env : String → String) (isbn : String) (id : Int)
    (headers : HeaderMap) (upstream : String → Upstream) (status : Nat)
    (rec : BooksResponse)
    (h : upstream (booksUri env isbn) = .response status rec) (hs : status ≠ 200) :
    fetchDetailsFromExternalService env isbn id headers upstream = some zeroDetails := by
  unfold fetchDetailsFromExternalService
  rw [h]
  simp [hs]

theorem fetch_no_items (env : String → String) (isbn : String) (id : Int)
    (headers : HeaderMap) (upstream : String → Upstream) (rec : BooksResponse)
    (h : upstream (booksUri env isbn) = .response 200 rec) (hi : rec.items = []) :
    fetchDetailsFromExternalService env isbn id headers upstream = none := by
  unfold fetchDetailsFromExternalService
  rw [h]
  simp [hi]

theorem fetch_no_authors (env : String → String) (isbn : String) (id : Int)
    (headers : HeaderMap) (upstream : String → Upstream) (rec : BooksResponse)
    (book : VolumeInfo) (rest : List VolumeInfo)
    (h : upstream (booksUri env isbn) = .response 200 rec)
    (hi : rec.items = book :: rest) (ha : book.authors = []) :
    fetchDetailsFromExternalService env isbn id headers upstream = none := by
  unfold fetchDetailsFromExternalService
  rw [h]
  simp [hi, ha]

theorem fetch_ok (env : String → String) (isbn : String) (id : Int)
    (headers : HeaderMap) (upstream : String → Upstream) (rec : BooksResponse)
    (book : VolumeInfo) (rest : List VolumeInfo) (a : String) (as : List String)
    (h : upstream (booksUri env isbn) = .response 200 rec)
    (hi : rec.items = book :: rest) (ha : book.authors = a :: as) :
    fetchDetailsFromExternalService env isbn id headers upstream =
      some { id := id, author := a, year := (goAtoi book.publishedDate).1,
             type := if book.printType = "BOOK" then "paperback" else "unknown",
             pages := book.pageCount, publisher := book.publisher,
             language := if book.language = "en" then "English" else "unknown",
             isbn10 := book.industryIdentifiers.foldl
               (fun m item => fun k => if k = item.1 then item.2 else m k)
               (fun _ => "") "ISBN_10",
             isbn13 := book.industryIdentifiers.foldl
               (fun m item => fun k => if k = item.1 then item.2 else m k)
               (fun _ => "") "ISBN_13" } := by
  unfold fetchDetailsFromExternalService
  rw [h]
  simp [hi, ha]

theorem getBookDetails_static (env : String → String) (id : Int)
    (headers : HeaderMap) (upstream : String → Upstream)
    (h : env "ENABLE_EXTERNAL_BOOK_SERVICE" ≠ "true") :
    getBookDetails env id headers upstream = some (staticDetails id) := by
  unfold getBookDetails
  rw [if_neg h]

/-! ## Claim theorems -/

/-- C5: with the external source disabled (`ENABLE_EXTERNAL_BOOK_SERVICE`
not `"true"`), `getBookDetails` returns the fixed literal `Details` record
with the id of the caller substituted in and the hardcoded placeholder values in
every other field, and it always succeeds (never panics). -/
theorem spec_C5 (env : String → String) (id : Int) (headers : HeaderMap)
    (upstream : String → Upstream)
    (h : env "ENABLE_EXTERNAL_BOOK_SERVICE" ≠ "true") :
    getBookDetails env id headers upstream =
      some { id := id, author := "William Shakespeare", year := 1595,
             type := "paperback", pages := 200, publisher := "PublisherA",
             language := "English", isbn10 := "1234567890",
             isbn13 := "123-1234567890" } :=
  getBookDetails_static env id headers upstream h

theorem spec_C5_witness :
    getBookDetails envOff 42 [] upConn =
      some { id := 42, author := "William Shakespeare", year := 1595,
             type := "paperback", pages := 200, publisher := "PublisherA",
             language := "English", isbn10 := "1234567890",
             isbn13 := "123-1234567890" } :=
  spec_C5 envOff 42 [] upConn (by decide)

/-- C8: with the external source enabled, `getBookDetails` delegates to the
external client with the fixed hardcoded ISBN key `"0486424618"` whatever
the id is; and in the client result every field other than `id` is
independent of the id given by the caller. -/
theorem spec_C8 :
    (∀ (env : String → String) (id : Int) (headers : HeaderMap)
        (upstream : String → Upstream),
      env "ENABLE_EXTERNAL_BOOK_SERVICE" = "true" →
      getBookDetails env id headers upstream =
        fetchDetailsFromExternalService env "0486424618" id headers upstream)
    ∧ (∀ (env : String → String) (isbn : String) (id₁ id₂ : Int)
        (headers : HeaderMap) (upstream : String → Upstream),
      (fetchDetailsFromExternalService env isbn id₁ headers upstream).map
          (fun d => { d with id := 0 })
        = (fetchDetailsFromExternalService env isbn id₂ headers upstream).map
          (fun d => { d with id := 0 })) := by
  constructor
  · intro env id headers upstream h
    unfold getBookDetails
    rw [if_pos h]
  · intro env isbn id₁ id₂ headers upstream
    cases hu : upstream (booksUri env isbn) with
    | connError =>
      rw [fetch_conn env isbn id₁ headers upstream hu,
          fetch_conn env isbn id₂ headers upstream hu]
    | response status rec =>
      by_cases hs : status = 200
      · subst hs
        cases hi : rec.items with
        | nil =>
          rw [fetch_no_items env isbn id₁ headers upstream rec hu hi,
              fetch_no_items env isbn id₂ headers upstream rec hu hi]
        | cons book rest =>
          cases ha : book.authors with
          | nil =>
            rw [fetch_no_authors env isbn id₁ headers upstream rec book rest hu hi ha,
                fetch_no_authors env isbn id₂ headers upstream rec book rest hu hi ha]
          | cons a as =>
            rw [fetch_ok env isbn id₁ headers upstream rec book rest a as hu hi ha,
                fetch_ok env isbn id₂ headers upstream rec book rest a as hu hi ha]
            rfl
      · rw [fetch_bad_status env isbn id₁ headers upstream status rec hu hs,
            fetch_bad_status env isbn id₂ headers upstream status rec hu hs]

theorem spec_C8_witness :
    getBookDetails envOn 42 [] upConn =
      fetchDetailsFromExternalService envOn "0486424618" 42 [] upConn ∧
    (fetchDetailsFromExternalService envOn "0486424618" 1 [] upConn).map
        (fun d => { d with id := 0 })
      = (fetchDetailsFromExternalService envOn "0486424618" 2 [] upConn).map
        (fun d => { d with id := 0 }) :=
  ⟨spec_C8.1 envOn 42 [] upConn (by decide), spec_C8.2 envOn "0486424618" 1 2 [] upConn⟩

/-- C3 (counterexample): the toggles are not captured at startup; the same
request (same id, same headers, same upstream) behaves differently under
two process environments that a startup-time capture would make
indistinguishable, because `getBookDetails` reads
`ENABLE_EXTERNAL_BOOK_SERVICE` from the environment at request time. -/
theorem spec_C3_counterexample :
    getBookDetails envOff 7 [] upConn ≠ getBookDetails envOn 7 [] upConn := by
  decide

/-- C3 (amended): the two toggles are read from the environment on every
call, not once at startup: the behaviour of a request is a function of the
values of `ENABLE_EXTERNAL_BOOK_SERVICE` and `DO_NOT_ENCRYPT` in the
process environment at the time of the call (and of nothing else in the
environment). -/
theorem spec_C3_amended (id : Int) (headers : HeaderMap)
    (upstream : String → Upstream) (env₁ env₂ : String → String)
    (h1 : env₁ "ENABLE_EXTERNAL_BOOK_SERVICE" = env₂ "ENABLE_EXTERNAL_BOOK_SERVICE")
    (h2 : env₁ "DO_NOT_ENCRYPT" = env₂ "DO_NOT_ENCRYPT") :
    getBookDetails env₁ id headers upstream = getBookDetails env₂ id headers upstream := by
  unfold getBookDetails fetchDetailsFromExternalService booksUri
  rw [h1, h2]

theorem spec_C3_witness :
    getBookDetails (fun n => if n = "DO_NOT_ENCRYPT" then "true" else "") 7 [] upConn
      = getBookDetails
          (fun n => if n = "DO_NOT_ENCRYPT" then "true" else if n = "HOME" then "/root" else "")
          7 [] upConn :=
  spec_C3_amended 7 [] upConn _ _ (by decide) (by decide)

/-- C1 (code bug): connection errors and non-2xx statuses do degrade to the
zero-valued `Details` as the claim states, but a decode failure or missing
fields do not: a 200 response whose body leaves the decoded items list
empty makes `rec.Items[0]` panic, and an item with an empty authors list
makes `book.Authors[0]` panic (`none` here), instead of returning the
zero-valued record. -/
theorem spec_C1_code_bug :
    fetchDetailsFromExternalService envOn "0486424618" 7 []
        (fun _ => .response 200 {}) = none
    ∧ fetchDetailsFromExternalService envOn "0486424618" 7 []
        (fun _ => .response 200 { items := [bookNoAuthors] }) = none
    ∧ fetchDetailsFromExternalService envOn "0486424618" 7 [] upConn = some zeroDetails
    ∧ fetchDetailsFromExternalService envOn "0486424618" 7 []
        (fun _ => .response 500 {}) = some zeroDetails := by
  refine ⟨rfl, rfl, rfl, by decide⟩

/-- C2 (counterexample): the code parses the published date with
`strconv.Atoi`, which accepts only a full decimal integer; on the date
string `"1595-05-01"` the claim promises year 1595, but the code yields
year 0. -/
theorem spec_C2_counterexample :
    ((fetchDetailsFromExternalService envOn "0486424618" 7 []
        (fun _ => .response 200 { items := [bookDated] })).map Details.year = some 0)
    ∧ ((fetchDetailsFromExternalService envOn "0486424618" 7 []
        (fun _ => .response 200 { items := [bookDated] })).map Details.year ≠ some 1595) := by
  constructor
  · decide
  · decide

/-- C2 (amended): for every well-formed upstream payload, `Details.year`
equals the value component of `strconv.Atoi` applied to the whole
published-date string: the parse succeeds only when the entire string is a
(signed) decimal integer, and on parse failure the year is 0 rather than
an error. -/
theorem spec_C2_amended (env : String → String) (isbn : String) (id : Int)
    (headers : HeaderMap) (upstream : String → Upstream)
    (book : VolumeInfo) (rest : List VolumeInfo)
    (hresp : upstream (booksUri env isbn) = .response 200 { items := book :: rest })
    (hauth : book.authors ≠ []) :
    ((fetchDetailsFromExternalService env isbn id headers upstream).map Details.year
        = some (goAtoi book.publishedDate).1)
    ∧ (parseSigned book.publishedDate = none →
      (fetchDetailsFromExternalService env isbn id headers upstream).map Details.year
        = some 0) := by
  have hmain : (fetchDetailsFromExternalService env isbn id headers upstream).map Details.year
      = some (goAtoi book.publishedDate).1 := by
    cases ha : book.authors with
    | nil => exact absurd ha hauth
    | cons a as =>
      rw [fetch_ok env isbn id headers upstream _ book rest a as hresp rfl ha]
      rfl
  refine ⟨hmain, fun hp => ?_⟩
  rw [hmain]
  unfold goAtoi
  rw [hp]

theorem spec_C2_witness :
    ((fetchDetailsFromExternalService envOn "0486424618" 7 []
        (fun _ => .response 200 { items := [bookDated] })).map Details.year
      = some (goAtoi bookDated.publishedDate).1)
    ∧ (parseSigned bookDated.publishedDate = none →
      (fetchDetailsFromExternalService envOn "0486424618" 7 []
        (fun _ => .response 200 { items := [bookDated] })).map Details.year = some 0) :=
  spec_C2_amended envOn "0486424618" 7 [] _ bookDated [] rfl (by decide)

/-- C6: on a well-formed upstream payload the client maps
`printType == "BOOK"` to type `"paperback"` and anything else to
`"unknown"`, and `language == "en"` to `"English"` and anything else to
`"unknown"`. -/
theorem spec_C6 (env : String → String) (isbn : String) (id : Int)
    (headers : HeaderMap) (upstream : String → Upstream)
    (book : VolumeInfo) (rest : List VolumeInfo)
    (hresp : upstream (booksUri env isbn) = .response 200 { items := book :: rest })
    (hauth : book.authors ≠ []) :
    ((fetchDetailsFromExternalService env isbn id headers upstream).map Details.type
        = some (if book.printType = "BOOK" then "paperback" else "unknown"))
    ∧ ((fetchDetailsFromExternalService env isbn id headers upstream).map Details.language
        = some (if book.language = "en" then "English" else "unknown")) := by
  cases ha : book.authors with
  | nil => exact absurd ha hauth
  | cons a as =>
    rw [fetch_ok env isbn id headers upstream _ book rest a as hresp rfl ha]
    exact ⟨rfl, rfl⟩

theorem spec_C6_witness :
    ((fetchDetailsFromExternalService envOn "0486424618" 3 []
        (fun _ => .response 200 { items := [bookDated] })).map Details.type
      = some (if bookDated.printType = "BOOK" then "paperback" else "unknown"))
    ∧ ((fetchDetailsFromExternalService envOn "0486424618" 3 []
        (fun _ => .response 200 { items := [bookDated] })).map Details.language
      = some (if bookDated.language = "en" then "English" else "unknown")) :=
  spec_C6 envOn "0486424618" 3 [] _ bookDated [] rfl (by decide)

/-! ## Theorems: the details handler -/

theorem details_parse_failure (env : String → String) (path : String)
    (wire : List (String × String)) (upstream : String → Upstream)
    (h : (goAtoi (lastSegment path)).2 = false) :
    details env path wire upstream =
      some { status := 400, contentType := "application/json", body := errorBody } := by
  unfold details
  rw [if_pos h]

theorem details_parse_ok (env : String → String) (path : String)
    (wire : List (String × String)) (upstream : String → Upstream)
    (h : (goAtoi (lastSegment path)).2 = true) :
    details env path wire upstream =
      (getBookDetails env (goAtoi (lastSegment path)).1
          (getForwardHeaders (buildHeader wire)) upstream).map
        (fun d => { status := 200, contentType := "application/json",
                    body := marshalDetails d }) := by
  unfold details
  rw [h]
  simp only [Bool.true_eq_false, if_false]
  cases getBookDetails env (goAtoi (lastSegment path)).1
      (getForwardHeaders (buildHeader wire)) upstream with
  | none => rfl
  | some d => rfl

/-- C7: whenever the trailing path segment does not parse as a decimal
integer (`strconv.Atoi` reports an error), the handler responds 400 with
exactly the fixed JSON error body, and the Content-Type header it sets is
`application/json` on this error path just as on every successful path. -/
theorem spec_C7 (env : String → String) (path : String)
    (wire : List (String × String)) (upstream : String → Upstream) :
    ((goAtoi (lastSegment path)).2 = false →
      details env path wire upstream =
        some { status := 400, contentType := "application/json",
               body := "\x7b\"error\":\"please provide numeric product id\"\x7d" })
    ∧ (∀ r : HttpResponse, details env path wire upstream = some r →
        r.contentType = "application/json") := by
  constructor
  · intro h
    exact details_parse_failure env path wire upstream h
  · intro r hr
    unfold details at hr
    by_cases h : (goAtoi (lastSegment path)).2 = false
    · rw [if_pos h] at hr
      cases hr
      rfl
    · rw [if_neg h] at hr
      cases hg : getBookDetails env (goAtoi (lastSegment path)).1
          (getForwardHeaders (buildHeader wire)) upstream with
      | none => rw [hg] at hr; cases hr
      | some d => rw [hg] at hr; cases hr; rfl

theorem spec_C7_witness :
    details envOff "/details/abc" [] upConn =
      some { status := 400, contentType := "application/json",
             body := "\x7b\"error\":\"please provide numeric product id\"\x7d" } :=
  (spec_C7 envOff "/details/abc" [] upConn).1 (by decide)

/-- C9 (counterexample): the claim fails in two ways.  A trailing segment
that is all decimal digits but exceeds the 64-bit signed range makes
`strconv.Atoi` report a range error, so the handler answers 400, not 200;
and with the external source enabled and a failing upstream, the id field
of the 200 response is the zero value 0, not the requested signed id. -/
theorem spec_C9_counterexample :
    ((details envOff "/details/99999999999999999999" [] upConn).map HttpResponse.status
        = some 400)
    ∧ details envOn "/details/-5" [] upConn =
        some { status := 200, contentType := "application/json",
               body := marshalDetails zeroDetails }
    ∧ marshalDetails zeroDetails ≠ marshalDetails { zeroDetails with id := -5 } := by
  refine ⟨by decide, by decide, by decide⟩

/-- C9 (amended): a trailing path segment that is an optional sign followed
by decimal digits, whose value fits in a signed 64-bit integer, is accepted
(the handler never takes the 400 branch: any response it writes has status
200), and when the external source is disabled the handler responds 200
with that signed integer echoed in the id field of the JSON body. -/
theorem spec_C9_amended (env : String → String) (path : String)
    (wire : List (String × String)) (upstream : String → Upstream) (v : Int)
    (hp : parseSigned (lastSegment path) = some v)
    (hlo : -(2 ^ 63) ≤ v) (hhi : v ≤ 2 ^ 63 - 1) :
    (∀ r : HttpResponse, details env path wire upstream = some r → r.status = 200)
    ∧ (env "ENABLE_EXTERNAL_BOOK_SERVICE" ≠ "true" →
      details env path wire upstream =
        some { status := 200, contentType := "application/json",
               body := marshalDetails (staticDetails v) }) := by
  have h1 : ¬ v < -(2 ^ 63) := by omega
  have h2 : ¬ v > 2 ^ 63 - 1 := by omega
  have hatoi : goAtoi (lastSegment path) = (v, true) := by
    unfold goAtoi
    rw [hp]
    simp only [h1, h2, if_false]
  constructor
  · intro r hr
    rw [details_parse_ok env path wire upstream (by rw [hatoi])] at hr
    cases hg : getBookDetails env (goAtoi (lastSegment path)).1
        (getForwardHeaders (buildHeader wire)) upstream with
    | none => rw [hg] at hr; cases hr
    | some d => rw [hg] at hr; cases hr; rfl
  · intro henv
    rw [details_parse_ok env path wire upstream (by rw [hatoi])]
    rw [getBookDetails_static env (goAtoi (lastSegment path)).1
        (getForwardHeaders (buildHeader wire)) upstream henv]
    rw [hatoi]
    rfl

theorem spec_C9_amended_witness :
    (∀ r : HttpResponse, details envOff "/details/-5" [] upConn = some r → r.status = 200)
    ∧ (envOff "ENABLE_EXTERNAL_BOOK_SERVICE" ≠ "true" →
      details envOff "/details/-5" [] upConn =
        some { status := 200, contentType := "application/json",
               body := marshalDetails (staticDetails (-5)) }) :=
  spec_C9_amended envOff "/details/-5" [] upConn (-5) (by decide) (by decide) (by decide)

/-! ## Theorems: MIME canonicalization vs case-insensitive equality -/

theorem canonList_case : ∀ (u : Bool) (l₁ l₂ : List Char),
    l₁.map lowerChar = l₂.map lowerChar → canonList u l₁ = canonList u l₂
  | _, [], [] => fun _ => rfl
  | _, [], _ :: _ => fun h => by cases h
  | _, _ :: _, [] => fun h => by cases h
  | u, a :: l₁, b :: l₂ => fun h => by
    have hab : lowerChar a = lowerChar b := by
      have := congrArg (fun l => l.headI) h
      simpa using this
    have htl : l₁.map lowerChar = l₂.map lowerChar := by
      have := congrArg List.tail h
      simpa using this
    have hhead : (if u then upperChar a else lowerChar a)
        = (if u then upperChar b else lowerChar b) := by
      cases u with
      | false => simpa using hab
      | true => simpa using upper_of_lower_eq hab
    unfold canonList
    simp only
    rw [hhead, canonList_case _ l₁ l₂ htl]

theorem map_lowerChar_canonList : ∀ (u : Bool) (l : List Char),
    (canonList u l).map lowerChar = l.map lowerChar
  | _, [] => rfl
  | u, c :: l => by
    unfold canonList
    simp only [List.map_cons]
    rw [map_lowerChar_canonList _ l]
    congr 1
    cases u with
    | false => exact lower_lower c
    | true => exact lower_upper c

theorem all_tokenChar_of_map_lower_eq {l₁ l₂ : List Char}
    (h : l₁.map lowerChar = l₂.map lowerChar) :
    l₁.all tokenChar = l₂.all tokenChar := by
  have e1 : l₁.all tokenChar = (l₁.map lowerChar).all tokenChar := by
    rw [List.all_map]
    exact congrArg l₁.all (funext fun c => (tokenChar_lowerChar c).symm)
  have e2 : l₂.all tokenChar = (l₂.map lowerChar).all tokenChar := by
    rw [List.all_map]
    exact congrArg l₂.all (funext fun c => (tokenChar_lowerChar c).symm)
  rw [e1, e2, h]

theorem lowerStr_eq_iff {s t : String} :
    lowerStr s = lowerStr t ↔ s.data.map lowerChar = t.data.map lowerChar := by
  constructor
  · intro h
    exact congrArg String.data h
  · intro h
    unfold lowerStr
    rw [h]

theorem canon_eq_of_lower_eq {s t : String} (hs : s.data.all tokenChar = true)
    (h : lowerStr s = lowerStr t) :
    canonicalMIMEHeaderKey s = canonicalMIMEHeaderKey t := by
  have hmap : s.data.map lowerChar = t.data.map lowerChar := lowerStr_eq_iff.mp h
  have ht : t.data.all tokenChar = true := by
    rw [← all_tokenChar_of_map_lower_eq hmap]
    exact hs
  unfold canonicalMIMEHeaderKey
  rw [if_pos hs, if_pos ht]
  rw [canonList_case true s.data t.data hmap]

theorem lowerStr_canon (s : String) :
    lowerStr (canonicalMIMEHeaderKey s) = lowerStr s := by
  unfold canonicalMIMEHeaderKey
  by_cases hs : s.data.all tokenChar
  · rw [if_pos hs]
    unfold lowerStr
    simp only
    rw [map_lowerChar_canonList]
  · rw [if_neg hs]

theorem canon_eq_iff_lower_eq {s t : String} (hs : s.data.all tokenChar = true) :
    (canonicalMIMEHeaderKey s = canonicalMIMEHeaderKey t) ↔ (lowerStr s = lowerStr t) := by
  constructor
  · intro h
    rw [← lowerStr_canon s, ← lowerStr_canon t, h]
  · exact canon_eq_of_lower_eq hs

/-! ## Theorems: header map accumulation and lookup -/

theorem headerGet_addHeaderValue : ∀ (h : HeaderMap) (k' v k),
    headerGet (addHeaderValue h k' v) k =
      if k' = k then headerGet h k ++ [v] else headerGet h k
  | [], k', v, k => by
    unfold addHeaderValue headerGet
    by_cases hk : k' = k
    · rw [if_pos hk, if_pos hk]
      rfl
    · rw [if_neg hk, if_neg hk]
      rfl
  | (k₀, vs) :: rest, k', v, k => by
    unfold addHeaderValue
    by_cases h0 : k₀ = k'
    · rw [if_pos h0]
      unfold headerGet
      by_cases hk : k₀ = k
      · rw [if_pos hk, if_pos hk, if_pos (h0 ▸ hk)]
      · rw [if_neg hk, if_neg hk]
        have : ¬ k' = k := fun hc => hk (h0 ▸ hc)
        rw [if_neg this]
    · rw [if_neg h0]
      unfold headerGet
      by_cases hk : k₀ = k
      · rw [if_pos hk, if_pos hk]
        have : ¬ k' = k := fun hc => h0 (by rw [hk, hc])
        rw [if_neg this]
      · rw [if_neg hk, if_neg hk]
        exact headerGet_addHeaderValue rest k' v k

theorem headerGet_foldl : ∀ (wire : List (String × String)) (h : HeaderMap) (k : String),
    headerGet (wire.foldl (fun h p => addHeaderValue h (canonicalMIMEHeaderKey p.1) p.2) h) k
      = headerGet h k
        ++ (wire.filter (fun p => canonicalMIMEHeaderKey p.1 = k)).map Prod.snd
  | [], h, k => by simp
  | p :: wire, h, k => by
    simp only [List.foldl_cons, List.filter_cons]
    rw [headerGet_foldl wire _ k]
    rw [headerGet_addHeaderValue h (canonicalMIMEHeaderKey p.1) p.2 k]
    by_cases hp : canonicalMIMEHeaderKey p.1 = k
    · rw [if_pos hp]
      simp [hp]
    · rw [if_neg hp]
      simp [hp]

theorem headerGet_buildHeader (wire : List (String × String)) (k : String) :
    headerGet (buildHeader wire) k =
      (wire.filter (fun p => canonicalMIMEHeaderKey p.1 = k)).map Prod.snd := by
  unfold buildHeader
  rw [headerGet_foldl wire [] k]
  rfl

theorem headerGet_filterMap : ∀ (L : List String) (f : String → List String) (k : String),
    L.Nodup →
    headerGet (L.filterMap (fun item =>
        if 0 < (f item).length then some (item, f item) else none)) k
      = if k ∈ L then f k else []
  | [], f, k, _ => by simp [headerGet]
  | a :: L, f, k, hnd => by
    have hndL : L.Nodup := (List.nodup_cons.mp hnd).2
    have haL : a ∉ L := (List.nodup_cons.mp hnd).1
    simp only [List.filterMap_cons]
    by_cases hfa : 0 < (f a).length
    · rw [if_pos hfa]
      unfold headerGet
      by_cases hk : a = k
      · subst hk
        rw [if_pos rfl, if_pos (List.mem_cons_self a L)]
      · rw [if_neg hk]
        rw [headerGet_filterMap L f k hndL]
        by_cases hkL : k ∈ L
        · rw [if_pos hkL, if_pos (List.mem_cons_of_mem a hkL)]
        · rw [if_neg hkL, if_neg (by
            intro hc
            rcases List.mem_cons.mp hc with h1 | h2
            · exact hk h1.symm
            · exact hkL h2)]
    · rw [if_neg hfa]
      rw [headerGet_filterMap L f k hndL]
      by_cases hk : k = a
      · subst hk
        rw [if_neg haL, if_pos (List.mem_cons_self k L)]
        have : f k = [] := by
          cases hfk : f k with
          | nil => rfl
          | cons x xs => exact absurd (by rw [hfk]; simp) hfa
        rw [this]
      · by_cases hkL : k ∈ L
        · rw [if_pos hkL, if_pos (List.mem_cons_of_mem a hkL)]
        · rw [if_neg hkL, if_neg (by
            intro hc
            rcases List.mem_cons.mp hc with h1 | h2
            · exact hk h1
            · exact hkL h2)]

theorem incomingHeaders_nodup : incomingHeaders.Nodup := by decide

theorem headerGet_getForwardHeaders (h : HeaderMap) (k : String) :
    headerGet (getForwardHeaders h) k =
      if k ∈ incomingHeaders then headerValues h k else [] :=
  headerGet_filterMap incomingHeaders (headerValues h) k incomingHeaders_nodup

theorem headerValues_buildHeader (wire : List (String × String)) (key : String)
    (hv : ∀ p ∈ wire, p.1.data.all tokenChar = true) :
    headerValues (buildHeader wire) key =
      (wire.filter (fun p => caseInsensitiveEq p.1 key)).map Prod.snd := by
  unfold headerValues
  rw [headerGet_buildHeader]
  congr 1
  apply List.filter_congr
  intro p hp
  unfold caseInsensitiveEq
  exact decide_eq_decide.mpr (canon_eq_iff_lower_eq (hv p hp))

theorem map_fst_filterMap (L : List String) (f : String → List String) :
    (L.filterMap (fun item =>
        if 0 < (f item).length then some (item, f item) else none)).map Prod.fst
      = L.filter (fun item => 0 < (f item).length) := by
  induction L with
  | nil => rfl
  | cons a L ih =>
    simp only [List.filterMap_cons, List.filter_cons]
    by_cases hfa : 0 < (f a).length
    · simp only [if_pos hfa, List.map_cons, ih, decide_eq_true hfa, if_true]
    · simp only [if_neg hfa, ih, decide_eq_false hfa, Bool.false_eq_true, if_false]

theorem map_fst_getForwardHeaders (h : HeaderMap) :
    (getForwardHeaders h).map Prod.fst
      = incomingHeaders.filter (fun item => 0 < (headerValues h item).length) :=
  map_fst_filterMap incomingHeaders (headerValues h)

theorem filterMap_congr_list {α β : Type} (L : List α) (f g : α → Option β)
    (h : ∀ a ∈ L, f a = g a) : L.filterMap f = L.filterMap g := by
  induction L with
  | nil => rfl
  | cons a L ih =>
    simp only [List.filterMap_cons]
    rw [h a (List.mem_cons_self a L), ih (fun b hb => h b (List.mem_cons_of_mem a hb))]

/-- C4: the header forwarder returns exactly the allow-listed subset: for
every allow-listed name, the output values under that name are exactly the
inbound values whose wire names are case-insensitively equal to it, in wire
order and multiplicity (so an allow-listed name with no inbound values is
simply absent), and any key that is not an allow-list entry is absent from
the output, whatever the input was. -/
theorem spec_C4 (wire : List (String × String))
    (hv : ∀ p ∈ wire, p.1.data.all tokenChar = true) :
    (∀ item ∈ incomingHeaders,
      headerGet (getForwardHeaders (buildHeader wire)) item
        = (wire.filter (fun p => caseInsensitiveEq p.1 item)).map Prod.snd)
    ∧ (∀ k, k ∉ incomingHeaders →
      headerGet (getForwardHeaders (buildHeader wire)) k = []) := by
  constructor
  · intro item hitem
    rw [headerGet_getForwardHeaders, if_pos hitem]
    exact headerValues_buildHeader wire item hv
  · intro k hk
    rw [headerGet_getForwardHeaders, if_neg hk]

theorem spec_C4_witness :
    (headerGet (getForwardHeaders (buildHeader [("X-Request-ID", "r1"), ("Other", "x")]))
        "x-request-id"
      = (([(("X-Request-ID" : String), ("r1" : String)), ("Other", "x")]).filter
          (fun p => caseInsensitiveEq p.1 "x-request-id")).map Prod.snd)
    ∧ headerGet (getForwardHeaders (buildHeader [("X-Request-ID", "r1"), ("Other", "x")]))
        "Other" = [] := by
  have h := spec_C4 [("X-Request-ID", "r1"), ("Other", "x")] (by decide)
  exact ⟨h.1 "x-request-id" (by decide), h.2 "Other" (by decide)⟩

theorem wire_filter_snd_eq (k : String) (wire wire' : List (String × String))
    (hrel : List.Forall₂ (fun p q => lowerStr p.1 = lowerStr q.1 ∧ p.2 = q.2) wire wire')
    (hv : ∀ p ∈ wire, p.1.data.all tokenChar = true) :
    (wire.filter (fun p => canonicalMIMEHeaderKey p.1 = k)).map Prod.snd
      = (wire'.filter (fun p => canonicalMIMEHeaderKey p.1 = k)).map Prod.snd := by
  revert hv
  induction hrel with
  | nil => intro _; rfl
  | @cons p q w₁ w₂ hpq htl ih =>
    intro hv
    have hvp : p.1.data.all tokenChar = true := hv p (List.mem_cons_self _ _)
    have hcanon : canonicalMIMEHeaderKey p.1 = canonicalMIMEHeaderKey q.1 :=
      canon_eq_of_lower_eq hvp hpq.1
    have ih' := ih (fun r hr => hv r (List.mem_cons_of_mem _ hr))
    simp only [List.filter_cons]
    by_cases hd : canonicalMIMEHeaderKey q.1 = k
    · rw [decide_eq_true (hcanon ▸ hd), decide_eq_true hd]
      simp only [if_true, List.map_cons, ih', hpq.2]
    · rw [decide_eq_false (fun hc => hd (hcanon ▸ hc)), decide_eq_false hd]
      simp only [Bool.false_eq_true, if_false, ih']

/-- C10: the output keys of the header forwarder are exactly the lowercase
allow-list strings as written for the names present on the wire, and the
whole output is invariant under changing the capitalization of the wire
header names: matching is case-insensitive, while the output keys are
assigned verbatim from the allow-list, never canonicalized. -/
theorem spec_C10 (wire wire' : List (String × String))
    (hv : ∀ p ∈ wire, p.1.data.all tokenChar = true)
    (hrel : List.Forall₂ (fun p q => lowerStr p.1 = lowerStr q.1 ∧ p.2 = q.2) wire wire') :
    getForwardHeaders (buildHeader wire) = getForwardHeaders (buildHeader wire')
    ∧ (getForwardHeaders (buildHeader wire)).map Prod.fst
      = incomingHeaders.filter
          (fun item => 0 < (wire.filter (fun p => caseInsensitiveEq p.1 item)).length) := by
  constructor
  · have hvals : ∀ item, headerValues (buildHeader wire) item
        = headerValues (buildHeader wire') item := by
      intro item
      unfold headerValues
      rw [headerGet_buildHeader, headerGet_buildHeader]
      exact wire_filter_snd_eq _ wire wire' hrel hv
    show List.filterMap _ incomingHeaders = List.filterMap _ incomingHeaders
    apply filterMap_congr_list
    intro item _
    simp only
    rw [hvals item]
  · rw [map_fst_getForwardHeaders]
    apply List.filter_congr
    intro item _
    rw [headerValues_buildHeader wire item hv]
    rw [List.length_map]

theorem spec_C10_witness :
    getForwardHeaders (buildHeader [("X-Request-ID", "r1"), ("USER-AGENT", "u")])
      = getForwardHeaders (buildHeader [("x-request-id", "r1"), ("User-Agent", "u")])
    ∧ (getForwardHeaders (buildHeader [("X-Request-ID", "r1"), ("USER-AGENT", "u")])).map
        Prod.fst
      = incomingHeaders.filter
          (fun item => 0 < (([(("X-Request-ID" : String), ("r1" : String)),
              ("USER-AGENT", "u")]).filter
            (fun p => caseInsensitiveEq p.1 item)).length) :=
  spec_C10 [("X-Request-ID", "r1"), ("USER-AGENT", "u")]
    [("x-request-id", "r1"), ("User-Agent", "u")] (by decide)
    (by
      refine List.Forall₂.cons ⟨?_, rfl⟩ (List.Forall₂.cons ⟨?_, rfl⟩ List.Forall₂.nil)
      · decide
      · decide)

end BookDetails
